import Mathlib

/-!
Verification of the `dither` command-line tool (src/index.js and the second,
unnamed entry point src/unnamed/part_000) against its specification.

The pure helpers of the source — `hexToRgb`, `rgbToHex`, the palette-selection
logic of `dither()`, and the scale/dimension computation — are embedded
directly from the JavaScript source, with strings modelled as lists of
characters and the JavaScript numbers of the scale computation modelled as
rationals.  The color-quantization and error-diffusion core is delegated by
the source to the external RgbQuant library, which is not part of this
repository; following the specification, that core (`buildPalette`, `dither`)
is modelled from the spec's sections 4.1 and 4.2.
-/

namespace DitherSpec

/-! ### Hex color parsing and printing (src/index.js lines 127–143) -/

/-- Character class `[a-f\d]` of the regex in `hexToRgb`, with the `/i`
(case-insensitive) flag: a decimal digit or a hex letter of either case. -/
def isHexDigitCI (c : Char) : Bool :=
  (('0' ≤ c) && (c ≤ '9')) || (('a' ≤ c) && (c ≤ 'f')) || (('A' ≤ c) && (c ≤ 'F'))

/-- Numeric value of one hex digit, as `parseInt(-, 16)` assigns it. -/
def hexDigitVal (c : Char) : Nat :=
  if ('0' ≤ c) && (c ≤ '9') then c.toNat - 48
  else if ('a' ≤ c) && (c ≤ 'f') then c.toNat - 87
  else if ('A' ≤ c) && (c ≤ 'F') then c.toNat - 55
  else 0

/-- `hexToRgb` from src/index.js lines 134–143 (identical in
src/unnamed/part_000 lines 160–169): the regex
`^#?([a-f\d]{2})([a-f\d]{2})([a-f\d]{2})$/i` consumes an optional leading
`#` and exactly six case-insensitive hex digits; on a match the three
two-digit groups are parsed base 16, otherwise the function returns null.
The `#?` prefix of the regex: consume one leading `#` when present. -/
def hexBody (s : List Char) : List Char :=
  match s with
  | c :: rest => if c = '#' then rest else s
  | [] => []

/-- Remainder of `hexToRgb` after the optional `#`: exactly six
case-insensitive hex digits, whose three two-digit groups are parsed
base 16 on a match. -/
def hexGroups (t : List Char) : Option (Nat × Nat × Nat) :=
  match t with
  | [c1, c2, c3, c4, c5, c6] =>
    if isHexDigitCI c1 && isHexDigitCI c2 && isHexDigitCI c3 &&
       isHexDigitCI c4 && isHexDigitCI c5 && isHexDigitCI c6 then
      some (16 * hexDigitVal c1 + hexDigitVal c2,
            16 * hexDigitVal c3 + hexDigitVal c4,
            16 * hexDigitVal c5 + hexDigitVal c6)
    else none
  | _ => none

def hexToRgb (s : List Char) : Option (Nat × Nat × Nat) :=
  hexGroups (hexBody s)

/-- The matching condition of the regex in `hexToRgb`, stated separately:
an optional `#` followed by exactly six case-insensitive hex digits. -/
def hexMatch (s : List Char) : Bool :=
  match hexBody s with
  | [c1, c2, c3, c4, c5, c6] =>
    isHexDigitCI c1 && isHexDigitCI c2 && isHexDigitCI c3 &&
    isHexDigitCI c4 && isHexDigitCI c5 && isHexDigitCI c6
  | _ => false

/-- Digit characters of JavaScript `Number.prototype.toString(16)`:
`0`–`9` then lowercase `a`–`f`. -/
def hexChar (n : Nat) : Char :=
  if n < 10 then Char.ofNat (48 + n) else Char.ofNat (87 + n)

/-- Base-16 digit expansion, most significant digit first, as produced by
JavaScript `x.toString(16)` on a non-negative integer.  The first argument
is recursion fuel; `n + 1` units always suffice for input `n`. -/
def natToHexAux : Nat → Nat → List Char
  | 0, _ => []
  | fuel + 1, n =>
    if n < 16 then [hexChar n]
    else natToHexAux fuel (n / 16) ++ [hexChar (n % 16)]

/-- JavaScript `x.toString(16)` for a natural number. -/
def natToHexChars (n : Nat) : List Char := natToHexAux (n + 1) n

/-- `rgbToHex` from src/index.js lines 127–132 (identical in
src/unnamed/part_000 lines 153–158): `'#'` followed by each channel rendered
in base 16 and padded to two characters when one character long. -/
def rgbToHex (rgb : List Nat) : List Char :=
  '#' :: (rgb.map (fun x =>
    let s := natToHexChars x
    if s.length = 1 then '0' :: s else s)).flatten

/-- The sixteen characters that `toString(16)` can produce as digits; the
six-lowercase-hex-digit strings of claim C8 are built from these. -/
def lowerHexDigits : List Char :=
  ['a', 'b', 'c', 'd', 'e', 'f', '0', '1', '2', '3', '4', '5', '6', '7', '8', '9']

/-! ### Palette selection in `dither()` (src/index.js lines 56–71,
src/unnamed/part_000 lines 56–69)

The relevant JavaScript values flowing through the
`(args.palette && args.palette.split(',')) ?? (preset && palettes[preset]) ?? []`
chain are `undefined`, strings and arrays; `JSVal` models exactly those.
Command-line string options are modelled as `Option String` (`none` =
flag absent); the preset table `palettes.js` is an input
(`List (String × List String)`), looked up by name. -/

/-- Strings of the CLI model, as lists of characters. -/
abbrev Str := List Char

/-- JavaScript `String.prototype.split(',')`: the empty string yields one
empty piece, and separators at the ends yield empty pieces. -/
def splitCommas : Str → List Str
  | [] => [[]]
  | c :: rest =>
    if c = ',' then [] :: splitCommas rest
    else match splitCommas rest with
      | l :: ls => (c :: l) :: ls
      | [] => [[c]]

inductive JSVal
  | absent
  | str (s : Str)
  | arr (l : List Str)
deriving DecidableEq

/-- Outcome of the palette-selection prologue of `dither()`:
`abort name` models printing `Unknown preset: name` followed by the preset
list and returning before any image is loaded or dithered; `palette l`
models proceeding to dither with the selected color list; `typeError`
models the crash of `palette.map(...)` when the chain left a string (not an
array) in `palette`. -/
inductive SelResult
  | abort (reported : Str)
  | palette (colors : List Str)
  | typeError
deriving DecidableEq

/-- JavaScript truthiness of an optional string value: absent (`undefined`)
and the empty string are falsy. -/
def truthy : Option Str → Bool
  | none => false
  | some s => !s.isEmpty

/-- JavaScript `??` on the modelled values (only `undefined` is nullish
here; the source never produces `null` in this chain; `absent` is the
JavaScript `undefined`). -/
def jsCoalesce : JSVal → JSVal → JSVal
  | .absent, b => b
  | a, _ => a

/-- Value of `args.palette && args.palette.split(',')`: `&&` yields the
falsy left operand (`undefined` or the empty string) unevaluated, else the
split array. -/
def paletteOperand : Option Str → JSVal
  | none => .absent
  | some s => if s.isEmpty then .str [] else .arr (splitCommas s)

/-- Value of `presetName && palettes[presetName]`: falsy preset name passes
through; otherwise the table lookup, `undefined` when the name is absent. -/
def presetOperand (tbl : List (Str × List Str)) : Option Str → JSVal
  | none => .absent
  | some s =>
    if s.isEmpty then .str []
    else match tbl.lookup s with
      | some l => .arr l
      | none => .absent

/-- What `palette.map((color) => hexToRgb(color))` does with the chain's
value: an array proceeds, anything else (a string, which has no `.map`)
throws a TypeError. -/
def applyPaletteValue : JSVal → SelResult
  | .arr l => .palette l
  | .str _ => .typeError
  | .absent => .typeError

/-- Palette selection of `dither()` in src/index.js lines 56–71: when
`args.preset` is truthy and the table lookup fails, print the unknown name
and return; otherwise evaluate the `??` chain and hand its value to
`palette.map`. -/
def selectIndex (preset palette : Option Str)
    (tbl : List (Str × List Str)) : SelResult :=
  match preset with
  | some s =>
    if ¬s.isEmpty ∧ (tbl.lookup s).isNone then .abort s
    else applyPaletteValue (jsCoalesce (paletteOperand palette)
      (jsCoalesce (presetOperand tbl preset) (.arr [])))
  | none =>
    applyPaletteValue (jsCoalesce (paletteOperand palette)
      (jsCoalesce (presetOperand tbl preset) (.arr [])))

/-- JavaScript `a || b` on optional strings, used for
`args.preset || args.p` in src/unnamed/part_000 line 56: a truthy left
operand is returned, otherwise the right operand. -/
def jsOrStr (a b : Option Str) : Option Str :=
  if truthy a then a else b

/-- Palette selection of `dither()` in src/unnamed/part_000 lines 56–69:
identical to src/index.js except that the preset name is
`args.preset || args.p`. -/
def selectPart (preset p palette : Option Str)
    (tbl : List (Str × List Str)) : SelResult :=
  match jsOrStr preset p with
  | some s =>
    if ¬s.isEmpty ∧ (tbl.lookup s).isNone then .abort s
    else applyPaletteValue (jsCoalesce (paletteOperand palette)
      (jsCoalesce (presetOperand tbl (jsOrStr preset p)) (.arr [])))
  | none =>
    applyPaletteValue (jsCoalesce (paletteOperand palette)
      (jsCoalesce (presetOperand tbl (jsOrStr preset p)) (.arr [])))

/-! ### Scale computation (src/index.js lines 84–89, identical in
src/unnamed/part_000)

JavaScript numbers of this computation are modelled as rationals; the
option values `args.s` / `args.scale` as `Option ℚ` with `none` = absent
and `0` the only falsy number that minimist produces here. -/

/-- JavaScript `a || b` on optional numbers: `undefined` and `0` are falsy. -/
def jsOrNum (a b : Option ℚ) : Option ℚ :=
  match a with
  | some x => if x = 0 then b else some x
  | none => b

/-- JavaScript `scale || dim`: the dimension when `scale` is absent or zero. -/
def scaleOr (scale : Option ℚ) (dim : ℚ) : ℚ :=
  match scale with
  | some v => if v = 0 then dim else v
  | none => dim

/-- Canvas dimensions computed in src/index.js lines 84–89:
`scale = args.s || args.scale`, `modifiedWidth = scale || image.width`,
`modifiedHeight = scale || image.height`,
`ratio = min(modifiedWidth / width, modifiedHeight / height)`, and the
canvas is `width * ratio` by `height * ratio`. -/
def computeDims (s scaleArg : Option ℚ) (w h : ℚ) : ℚ × ℚ :=
  let scale := jsOrNum s scaleArg
  let mw := scaleOr scale w
  let mh := scaleOr scale h
  let ratio := min (mw / w) (mh / h)
  (w * ratio, h * ratio)

/-! ### The quantization/dithering core

The source delegates this core to the external RgbQuant library
(src/index.js lines 94–101); it is not code of this repository, and the
specification (sections 4.1 and 4.2) defines a self-contained replacement.
The definitions below are modelled from the spec.  Floating-point error
terms are modelled as rationals. -/

/-- Pixel of the spec's data model: a 4-tuple of 8-bit unsigned channel
values (red, green, blue, alpha). -/
structure Pixel where
  r : Nat
  g : Nat
  b : Nat
  a : Nat
deriving DecidableEq

/-- Well-formedness of a pixel: every channel in 0–255 (Boolean form, used
by the palette validation). -/
def Pixel.wfb (p : Pixel) : Bool :=
  (p.r ≤ 255) && (p.g ≤ 255) && (p.b ≤ 255) && (p.a ≤ 255)

/-- Image buffer of the spec's data model: a width × height grid of pixels,
row-major. -/
structure ImageBuffer where
  width : Nat
  height : Nat
  pixels : List Pixel
deriving DecidableEq

/-- Shape invariant of an image buffer: the pixel list holds exactly
width × height entries. -/
def ImageBuffer.wf (img : ImageBuffer) : Prop :=
  img.pixels.length = img.width * img.height

/-- Error kinds of the palette builder (spec section 7). -/
inductive PaletteError
  | invalidColorCount
  | invalidPaletteEntry
deriving DecidableEq

/-- Error kinds of the ditherer (spec section 7). -/
inductive DitherError
  | emptyPalette
  | dimensionMismatch
deriving DecidableEq

/-- Per-channel RGB error value, one rational per channel. -/
abbrev ErrTriple := ℚ × ℚ × ℚ

/-- RGB channels of a pixel as an exact rational triple. -/
def pixelTriple (p : Pixel) : ErrTriple := ((p.r : ℚ), (p.g : ℚ), (p.b : ℚ))

/-- RGB channels of a pixel, used to state palette membership. -/
def rgbOf (p : Pixel) : Nat × Nat × Nat := (p.r, p.g, p.b)

/-- Distinct colors of a list in first-occurrence order.  The first argument
is recursion fuel; the list's length always suffices. -/
def firstOccAux : Nat → List Pixel → List Pixel
  | 0, _ => []
  | _ + 1, [] => []
  | fuel + 1, p :: rest =>
    p :: firstOccAux fuel (rest.filter (fun q => !(decide (q = p))))

/-- Number of occurrences of a color in a pixel list. -/
def countColor (l : List Pixel) (p : Pixel) : Nat :=
  l.countP (fun q => decide (q = p))

/-- Modelled from the spec: section 4.1 lets the palette builder derive up
to `targetCount` representative colors by a deterministic histogram
strategy (the derivation inside RgbQuant is not code of this repository).
The strategy chosen and documented here: collect the image's distinct
colors in first-occurrence order, stably sort them by descending frequency,
and keep the first `targetCount`. -/
def derivePalette (img : ImageBuffer) (targetCount : Nat) : List Pixel :=
  let distinct := firstOccAux img.pixels.length img.pixels
  let sorted := List.insertionSort
    (fun p q => countColor img.pixels q ≤ countColor img.pixels p) distinct
  sorted.take targetCount

/-- Modelled from the spec: `buildPalette` of section 4.1 (the palette
builder lives inside the external RgbQuant library, not under src/).  A
provided non-empty explicit sequence is the palette, validated to contain
only well-formed pixels, with malformed entries failing as
`InvalidPaletteEntry`; otherwise up to `targetCount` colors are derived,
and a target count below 1 fails as `InvalidColorCount`. -/
def buildPalette (img : ImageBuffer) (targetCount : Nat)
    (explicitColors : Option (List Pixel)) : Except PaletteError (List Pixel) :=
  match explicitColors with
  | some cs =>
    if cs.isEmpty then
      if targetCount < 1 then .error .invalidColorCount
      else .ok (derivePalette img targetCount)
    else if cs.all Pixel.wfb then .ok cs
    else .error .invalidPaletteEntry
  | none =>
    if targetCount < 1 then .error .invalidColorCount
    else .ok (derivePalette img targetCount)

/-- Parse a list of hex color strings with the source's `hexToRgb`,
failing (as the null result of `hexToRgb`) when any entry is malformed;
parsed colors get the opaque alpha 255. -/
def parseHexList : List (List Char) → Option (List Pixel)
  | [] => some []
  | s :: rest =>
    match hexToRgb s, parseHexList rest with
    | some t, some l => some (⟨t.1, t.2.1, t.2.2, 255⟩ :: l)
    | _, _ => none

/-- Modelled from the spec: the bridge from the CLI's hex-string palette
(src/index.js line 97 maps `hexToRgb` over the selected colors) into
`buildPalette`'s explicit-color argument.  A string that `hexToRgb`
rejects is a malformed entry and fails as `InvalidPaletteEntry`; an empty
selection means no explicit colors. -/
def buildPaletteFromHex (img : ImageBuffer) (targetCount : Nat)
    (strs : List (List Char)) : Except PaletteError (List Pixel) :=
  if strs.isEmpty then buildPalette img targetCount none
  else match parseHexList strs with
    | some cs => buildPalette img targetCount (some cs)
    | none => .error .invalidPaletteEntry

/-- A diffusion kernel: offsets `(dx, dy)` relative to the scan direction
(`dx` positive = ahead in scan direction, `dy` positive = rows below) with
their weights. -/
structure DiffusionKernel where
  weights : List (Int × Int × ℚ)

/-- The classic Floyd-Steinberg kernel of spec section 4.2 step 3f, the
kernel the source configures (`dithKern: 'FloydSteinberg'`): 7/16 ahead,
3/16 below-behind, 5/16 below, 1/16 below-ahead. -/
def floydSteinberg : DiffusionKernel :=
  ⟨[(1, 0, (7 : ℚ) / 16), (-1, 1, (3 : ℚ) / 16),
    (0, 1, (5 : ℚ) / 16), (1, 1, (1 : ℚ) / 16)]⟩

/-- Clamp one working-color channel to [0, 255] (spec section 4.2 step 3b). -/
def clampQ (x : ℚ) : ℚ := max 0 (min 255 x)

/-- Squared Euclidean RGB distance between a working color and a palette
entry (spec section 4.2 step 3c: squared distance suffices). -/
def distSq (w : ErrTriple) (p : Pixel) : ℚ :=
  (w.1 - (p.r : ℚ)) ^ 2 + (w.2.1 - (p.g : ℚ)) ^ 2 + (w.2.2 - (p.b : ℚ)) ^ 2

/-- Scan of the remaining palette keeping the current best entry and its
distance; a strict comparison keeps the lowest-index entry among ties
(spec section 4.2 step 3c tie-break). -/
def nearestAux (w : ErrTriple) : List Pixel → Pixel → ℚ → Pixel
  | [], best, _ => best
  | p :: rest, best, bestD =>
    if distSq w p < bestD then nearestAux w rest p (distSq w p)
    else nearestAux w rest best bestD

/-- Positions of one row in traversal order: left to right, reversed on odd
rows when serpentine is on (spec section 4.2 step 2). -/
def rowPositions (w : Nat) (serp : Bool) (y : Nat) : List (Nat × Nat) :=
  let xs := List.range w
  let xs := if y % 2 == 1 && serp then xs.reverse else xs
  xs.map (fun x => (x, y))

/-- Full traversal order: rows top to bottom. -/
def traversal (w h : Nat) (serp : Bool) : List (Nat × Nat) :=
  (List.range h).flatMap (rowPositions w serp)

/-- Horizontal scan direction of a row: −1 on odd rows of a serpentine
scan, otherwise 1.  Kernel `dx` offsets mirror with this sign
(spec section 4.2 step 3f). -/
def scanDir (serp : Bool) (y : Nat) : Int :=
  if y % 2 == 1 && serp then -1 else 1

/-- Mutable state of one ditherer invocation: the error accumulator and
the output pixel grid, both row-major of length width × height. -/
structure DitherState where
  acc : List ErrTriple
  out : List Pixel

/-- Add a weighted error contribution to an accumulator cell. -/
def addErr (t : ErrTriple) (wgt : ℚ) (e : ErrTriple) : ErrTriple :=
  (t.1 + wgt * e.1, t.2.1 + wgt * e.2.1, t.2.2 + wgt * e.2.2)

/-- Diffuse one kernel entry's share of the quantization error from pixel
`(x, y)`: contributions aimed outside the image are dropped
(spec section 4.2 step 3g). -/
def diffuseOne (wdt hgt x y : Nat) (dir : Int) (err : ErrTriple)
    (acc : List ErrTriple) (entry : Int × Int × ℚ) : List ErrTriple :=
  let tx : Int := (x : Int) + dir * entry.1
  let ty : Int := (y : Int) + entry.2.1
  if 0 ≤ tx ∧ tx < (wdt : Int) ∧ 0 ≤ ty ∧ ty < (hgt : Int) then
    let idx := ty.toNat * wdt + tx.toNat
    acc.set idx (addErr (acc.getD idx (0, 0, 0)) entry.2.2 err)
  else acc

/-- Distribute the quantization error of pixel `(x, y)` over all kernel
entries (spec section 4.2 step 3f). -/
def distributeError (k : DiffusionKernel) (wdt hgt x y : Nat) (dir : Int)
    (err : ErrTriple) (acc : List ErrTriple) : List ErrTriple :=
  k.weights.foldl (diffuseOne wdt hgt x y dir err) acc

/-- One pixel of the diffusion pass (spec section 4.2 step 3): working
color = source + accumulated error, clamped; nearest palette entry chosen;
output written with the source's alpha; the signed error diffused. -/
def ditherStep (img : ImageBuffer) (p0 : Pixel) (prest : List Pixel)
    (k : DiffusionKernel) (serp : Bool) (st : DitherState)
    (pos : Nat × Nat) : DitherState :=
  let x := pos.1
  let y := pos.2
  let idx := y * img.width + x
  let src := img.pixels.getD idx ⟨0, 0, 0, 0⟩
  let e := st.acc.getD idx (0, 0, 0)
  let work : ErrTriple :=
    (clampQ ((src.r : ℚ) + e.1), clampQ ((src.g : ℚ) + e.2.1),
     clampQ ((src.b : ℚ) + e.2.2))
  let chosen := nearestAux work prest p0 (distSq work p0)
  let err : ErrTriple :=
    (work.1 - (chosen.r : ℚ), work.2.1 - (chosen.g : ℚ),
     work.2.2 - (chosen.b : ℚ))
  { acc := distributeError k img.width img.height x y (scanDir serp y) err st.acc,
    out := st.out.set idx ⟨chosen.r, chosen.g, chosen.b, src.a⟩ }

/-- Modelled from the spec: `dither` of section 4.2 (the error-diffusion
ditherer lives inside the external RgbQuant library, not under src/).
Fails as `EmptyPalette` on a zero-entry palette and as `DimensionMismatch`
on a zero dimension (the non-finite dimensions of the spec have no
counterpart in an exact model); otherwise runs the diffusion pass over the
full traversal, starting from a zero error accumulator. -/
def dither (img : ImageBuffer) (palette : List Pixel) (k : DiffusionKernel)
    (serpentine : Bool) : Except DitherError ImageBuffer :=
  match palette with
  | [] => .error .emptyPalette
  | p0 :: prest =>
    if img.width = 0 ∨ img.height = 0 then .error .dimensionMismatch
    else
      let init : DitherState :=
        { acc := List.replicate (img.width * img.height) ((0 : ℚ), (0 : ℚ), (0 : ℚ)),
          out := img.pixels }
      let final := (traversal img.width img.height serpentine).foldl
        (ditherStep img p0 prest k serpentine) init
      .ok { width := img.width, height := img.height, pixels := final.out }

instance {ε α : Type} [DecidableEq ε] [DecidableEq α] : DecidableEq (Except ε α) :=
  fun x y =>
    match x, y with
    | .ok a, .ok b => decidable_of_iff (a = b) (by simp)
    | .error a, .error b => decidable_of_iff (a = b) (by simp)
    | .ok _, .error _ => isFalse (by simp)
    | .error _, .ok _ => isFalse (by simp)

/-- The pipeline run by `dither()` in src/index.js when the selected
palette is a (possibly empty) list of hex color strings: build the palette
(explicit when non-empty, derived with the source's `colors: 8` target
otherwise), then dither with the Floyd-Steinberg kernel. -/
def cliPipeline (strs : List (List Char)) (serp : Bool)
    (img : ImageBuffer) : Except PaletteError (Except DitherError ImageBuffer) :=
  (buildPaletteFromHex img 8 strs).map (fun pal => dither img pal floydSteinberg serp)

/-- True exactly when a pipeline run got past palette building and
dithering without an error, producing an output image. -/
def pipelineProceeds : Except PaletteError (Except DitherError ImageBuffer) → Bool
  | .ok (.ok _) => true
  | _ => false

/-! ### Hex parsing and printing: claim C8 -/

theorem isHexDigitCI_of_mem (c : Char) (h : c ∈ lowerHexDigits) :
    isHexDigitCI c = true := by
  fin_cases h <;> decide

theorem hexDigitVal_lt_16 (c : Char) (h : c ∈ lowerHexDigits) :
    hexDigitVal c < 16 := by
  fin_cases h <;> decide

theorem hexPad_pair (a b : Char) (ha : a ∈ lowerHexDigits) (hb : b ∈ lowerHexDigits) :
    (if (natToHexChars (16 * hexDigitVal a + hexDigitVal b)).length = 1
     then '0' :: natToHexChars (16 * hexDigitVal a + hexDigitVal b)
     else natToHexChars (16 * hexDigitVal a + hexDigitVal b)) = [a, b] := by
  fin_cases ha <;> fin_cases hb <;> decide

theorem hexToRgb_eq_none_of_not_match (s : Str) (hs : hexMatch s = false) :
    hexToRgb s = none := by
  simp only [hexToRgb, hexMatch] at hs ⊢
  generalize hexBody s = t at hs ⊢
  rcases t with _ | ⟨c1, _ | ⟨c2, _ | ⟨c3, _ | ⟨c4, _ | ⟨c5, _ | ⟨c6, _ | ⟨c7, rest⟩⟩⟩⟩⟩⟩⟩ <;>
    simp_all [hexGroups]

/-- C8: a string of `#` followed by six lowercase hex digits parses with
`hexToRgb` to a triple of channel values in 0–255 that `rgbToHex` prints
back to the very same string, and any string the regex rejects makes
`hexToRgb` return null rather than raising. -/
theorem hexToRgb_rgbToHex_roundTrip :
    (∀ c1 c2 c3 c4 c5 c6 : Char,
      c1 ∈ lowerHexDigits → c2 ∈ lowerHexDigits → c3 ∈ lowerHexDigits →
      c4 ∈ lowerHexDigits → c5 ∈ lowerHexDigits → c6 ∈ lowerHexDigits →
      hexToRgb ['#', c1, c2, c3, c4, c5, c6] =
        some (16 * hexDigitVal c1 + hexDigitVal c2,
              16 * hexDigitVal c3 + hexDigitVal c4,
              16 * hexDigitVal c5 + hexDigitVal c6) ∧
      16 * hexDigitVal c1 + hexDigitVal c2 ≤ 255 ∧
      16 * hexDigitVal c3 + hexDigitVal c4 ≤ 255 ∧
      16 * hexDigitVal c5 + hexDigitVal c6 ≤ 255 ∧
      rgbToHex [16 * hexDigitVal c1 + hexDigitVal c2,
                16 * hexDigitVal c3 + hexDigitVal c4,
                16 * hexDigitVal c5 + hexDigitVal c6] =
        ['#', c1, c2, c3, c4, c5, c6]) ∧
    (∀ s : Str, hexMatch s = false → hexToRgb s = none) := by
  constructor
  · intro c1 c2 c3 c4 c5 c6 h1 h2 h3 h4 h5 h6
    refine ⟨?_, ?_, ?_, ?_, ?_⟩
    · simp [hexToRgb, hexBody, hexGroups, isHexDigitCI_of_mem _ h1,
        isHexDigitCI_of_mem _ h2, isHexDigitCI_of_mem _ h3,
        isHexDigitCI_of_mem _ h4, isHexDigitCI_of_mem _ h5,
        isHexDigitCI_of_mem _ h6]
    · have := hexDigitVal_lt_16 _ h1
      have := hexDigitVal_lt_16 _ h2
      omega
    · have := hexDigitVal_lt_16 _ h3
      have := hexDigitVal_lt_16 _ h4
      omega
    · have := hexDigitVal_lt_16 _ h5
      have := hexDigitVal_lt_16 _ h6
      omega
    · simp only [rgbToHex, List.map]
      rw [hexPad_pair _ _ h1 h2, hexPad_pair _ _ h3 h4, hexPad_pair _ _ h5 h6]
      rfl
  · exact hexToRgb_eq_none_of_not_match

/-- C8 witness: the round trip at the concrete string `#1a2b3c` and the
null result at the concrete non-matching string `zz`. -/
theorem hexToRgb_rgbToHex_roundTrip_check :
    (hexToRgb ['#', '1', 'a', '2', 'b', '3', 'c'] =
        some (16 * hexDigitVal '1' + hexDigitVal 'a',
              16 * hexDigitVal '2' + hexDigitVal 'b',
              16 * hexDigitVal '3' + hexDigitVal 'c') ∧
      16 * hexDigitVal '1' + hexDigitVal 'a' ≤ 255 ∧
      16 * hexDigitVal '2' + hexDigitVal 'b' ≤ 255 ∧
      16 * hexDigitVal '3' + hexDigitVal 'c' ≤ 255 ∧
      rgbToHex [16 * hexDigitVal '1' + hexDigitVal 'a',
                16 * hexDigitVal '2' + hexDigitVal 'b',
                16 * hexDigitVal '3' + hexDigitVal 'c'] =
        ['#', '1', 'a', '2', 'b', '3', 'c']) ∧
    hexToRgb ['z', 'z'] = none :=
  ⟨hexToRgb_rgbToHex_roundTrip.1 '1' 'a' '2' 'b' '3' 'c'
      (by decide) (by decide) (by decide) (by decide) (by decide) (by decide),
    hexToRgb_rgbToHex_roundTrip.2 ['z', 'z'] (by decide)⟩

/-! ### Palette selection: claims C4, C6, C9 -/

theorem truthy_cons (c : Char) (cs : Str) : truthy (some (c :: cs)) = true := rfl

/-- C6: a truthy preset name absent from the preset table makes both entry
points report that name (the `Unknown preset` message carries it) and
return before any dithering or output writing, whatever the other
arguments are. -/
theorem unknown_preset_aborts (tbl : List (Str × List Str)) (name : Str)
    (palArg pArg : Option Str) (hn : name ≠ []) (h : tbl.lookup name = none) :
    selectIndex (some name) palArg tbl = .abort name ∧
    selectPart (some name) pArg palArg tbl = .abort name := by
  have hne : name.isEmpty = false := by
    cases name with
    | nil => exact absurd rfl hn
    | cons c cs => rfl
  have hor : jsOrStr (some name) pArg = some name := by
    cases name with
    | nil => exact absurd rfl hn
    | cons c cs => simp [jsOrStr, truthy_cons]
  constructor
  · simp [selectIndex, hne, h]
  · simp [selectPart, hor, hne, h]

/-- C6 witness. -/
theorem unknown_preset_aborts_check :
    selectIndex (some ['g', 'b']) (some ['#', 'a', 'a', 'b', 'b', 'c', 'c'])
      [(['b', 'w'], [['#', '0', '0', '0', '0', '0', '0']])] = .abort ['g', 'b'] ∧
    selectPart (some ['g', 'b']) none (some ['#', 'a', 'a', 'b', 'b', 'c', 'c'])
      [(['b', 'w'], [['#', '0', '0', '0', '0', '0', '0']])] = .abort ['g', 'b'] :=
  unknown_preset_aborts _ _ _ _ (by decide) (by decide)

/-- C4 counterexample: with the explicit list `#aabbcc` and the unknown
preset name `nope` supplied together, src/index.js aborts at the preset
check and never reaches the explicit list, so the palette used for
dithering is not the explicit list. -/
theorem explicit_over_preset_cex :
    selectIndex (some ['n', 'o', 'p', 'e']) (some ['#', 'a', 'a', 'b', 'b', 'c', 'c'])
      [(['b', 'w'], [['#', '0', '0', '0', '0', '0', '0'], ['#', 'f', 'f', 'f', 'f', 'f', 'f']])] =
      .abort ['n', 'o', 'p', 'e'] ∧
    SelResult.abort ['n', 'o', 'p', 'e'] ≠
      .palette [['#', 'a', 'a', 'b', 'b', 'c', 'c']] := by decide

/-- C4 (amended): when an explicit (non-empty) `--palette` list and a
truthy preset name are both supplied, the explicit list takes precedence
whenever the named preset exists in the table; when the named preset does
not exist, the invocation aborts without using the explicit list. -/
theorem explicit_palette_precedence (tbl : List (Str × List Str))
    (name pstr : Str) (hn : name ≠ []) (hp : pstr ≠ []) :
    ((tbl.lookup name).isSome →
      selectIndex (some name) (some pstr) tbl = .palette (splitCommas pstr)) ∧
    (tbl.lookup name = none →
      selectIndex (some name) (some pstr) tbl = .abort name) := by
  have hne : name.isEmpty = false := by
    cases name with
    | nil => exact absurd rfl hn
    | cons c cs => rfl
  have hpe : pstr.isEmpty = false := by
    cases pstr with
    | nil => exact absurd rfl hp
    | cons c cs => rfl
  constructor
  · intro hsome
    have : (tbl.lookup name).isNone = false := by
      rw [Option.isNone_eq_false_iff]
      exact hsome
    simp [selectIndex, hne, this, paletteOperand, hpe, jsCoalesce, applyPaletteValue]
  · intro hnone
    simp [selectIndex, hne, hnone]

/-- C4 witness. -/
theorem explicit_palette_precedence_check :
    ((([(['b', 'w'], [['#', '0', '0', '0', '0', '0', '0']])] : List (Str × List Str)).lookup
        ['b', 'w']).isSome →
      selectIndex (some ['b', 'w']) (some ['#', 'a', 'a', ',', '#', 'b', 'b'])
        [(['b', 'w'], [['#', '0', '0', '0', '0', '0', '0']])] =
        .palette (splitCommas ['#', 'a', 'a', ',', '#', 'b', 'b'])) ∧
    (([(['b', 'w'], [['#', '0', '0', '0', '0', '0', '0']])] : List (Str × List Str)).lookup
        ['b', 'w'] = none →
      selectIndex (some ['b', 'w']) (some ['#', 'a', 'a', ',', '#', 'b', 'b'])
        [(['b', 'w'], [['#', '0', '0', '0', '0', '0', '0']])] = .abort ['b', 'w']) :=
  explicit_palette_precedence _ _ _ (by decide) (by decide)

/-- C9 counterexample: the two entry points disagree on concrete argument
sets.  With only `-p no` supplied (table containing a `bw` preset),
src/index.js ignores `-p` and proceeds with the empty palette while
src/unnamed/part_000 aborts on the unknown preset `no`; with only
`--preset=` (empty string) supplied, src/index.js crashes on
`palette.map` (the `??` chain leaves the empty string) while
src/unnamed/part_000 proceeds with the empty palette. -/
theorem entry_points_selection_cex :
    selectIndex none none [(['b', 'w'], [['#', '0', '0', '0', '0', '0', '0']])] =
      .palette [] ∧
    selectPart none (some ['n', 'o']) none
      [(['b', 'w'], [['#', '0', '0', '0', '0', '0', '0']])] = .abort ['n', 'o'] ∧
    SelResult.palette [] ≠ SelResult.abort ['n', 'o'] ∧
    selectIndex (some []) none [(['b', 'w'], [['#', '0', '0', '0', '0', '0', '0']])] =
      .typeError ∧
    selectPart (some []) none none [(['b', 'w'], [['#', '0', '0', '0', '0', '0', '0']])] =
      .palette [] ∧
    SelResult.typeError ≠ SelResult.palette [] := by decide

/-- C9 (amended): the palette selection of the two entry points agrees on
every argument set in which `-p` is absent and `--preset` is not the empty
string; they differ when `-p` is supplied (src/unnamed/part_000 honors it
as a preset alias, src/index.js ignores it) and on an empty `--preset`. -/
theorem entry_points_selection_agree (tbl : List (Str × List Str))
    (preset palArg : Option Str) (hp : preset ≠ some []) :
    selectPart preset none palArg tbl = selectIndex preset palArg tbl := by
  cases preset with
  | none => rfl
  | some s =>
    cases s with
    | nil => exact absurd rfl hp
    | cons c cs =>
      have hor : jsOrStr (some (c :: cs)) none = some (c :: cs) := by
        simp [jsOrStr, truthy_cons]
      simp [selectPart, selectIndex, hor]

/-- C9 (amended) witness. -/
theorem entry_points_selection_agree_check :
    selectPart (some ['b', 'w']) none none
      [(['b', 'w'], [['#', '0', '0', '0', '0', '0', '0']])] =
    selectIndex (some ['b', 'w']) none
      [(['b', 'w'], [['#', '0', '0', '0', '0', '0', '0']])] :=
  entry_points_selection_agree _ _ _ (by decide)

/-! ### Scale computation: claim C10 -/

/-- C10: with a positive scale `s` the computed canvas is
`w * min (s/w) (s/h)` by `h * min (s/w) (s/h)`, the larger computed
dimension equals `s`, the source aspect ratio is preserved, and with no
scale supplied the canvas is `w` by `h`. -/
theorem computeDims_scale (s w h : ℚ) (t : Option ℚ)
    (hw : 0 < w) (hh : 0 < h) (hs : 0 < s) :
    computeDims (some s) t w h =
      (w * min (s / w) (s / h), h * min (s / w) (s / h)) ∧
    max (computeDims (some s) t w h).1 (computeDims (some s) t w h).2 = s ∧
    (computeDims (some s) t w h).1 / (computeDims (some s) t w h).2 = w / h ∧
    computeDims none none w h = (w, h) := by
  have hbase : computeDims (some s) t w h =
      (w * min (s / w) (s / h), h * min (s / w) (s / h)) := by
    simp [computeDims, jsOrNum, scaleOr, hs.ne']
  refine ⟨hbase, ?_, ?_, ?_⟩
  · rw [hbase]
    rcases le_total w h with hwh | hwh
    · have hmin : min (s / w) (s / h) = s / h :=
        min_eq_right (div_le_div_of_nonneg_left hs.le hw hwh)
      rw [hmin]
      have hhs : h * (s / h) = s := by
        field_simp
      have hws : w * (s / h) ≤ s := by
        calc w * (s / h) ≤ h * (s / h) :=
              mul_le_mul_of_nonneg_right hwh (div_pos hs hh).le
          _ = s := hhs
      rw [hhs]
      exact max_eq_right hws
    · have hmin : min (s / w) (s / h) = s / w :=
        min_eq_left (div_le_div_of_nonneg_left hs.le hh hwh)
      rw [hmin]
      have hws : w * (s / w) = s := by
        field_simp
      have hhs : h * (s / w) ≤ s := by
        calc h * (s / w) ≤ w * (s / w) :=
              mul_le_mul_of_nonneg_right hwh (div_pos hs hw).le
          _ = s := hws
      rw [hws]
      exact max_eq_left hhs
  · rw [hbase]
    have hr : (0 : ℚ) < min (s / w) (s / h) :=
      lt_min (div_pos hs hw) (div_pos hs hh)
    rw [mul_comm w _, mul_comm h _]
    exact mul_div_mul_left _ _ hr.ne'
  · simp [computeDims, jsOrNum, scaleOr, div_self hw.ne', div_self hh.ne']

/-- C10 witness: a 40 × 20 source with scale 100 becomes 100 × 50, and the
same source with no scale keeps its dimensions. -/
theorem computeDims_scale_check :
    computeDims (some 100) none 40 20 =
      ((40 : ℚ) * min ((100 : ℚ) / 40) ((100 : ℚ) / 20),
       (20 : ℚ) * min ((100 : ℚ) / 40) ((100 : ℚ) / 20)) ∧
    max (computeDims (some 100) none 40 20).1 (computeDims (some 100) none 40 20).2 = 100 ∧
    (computeDims (some 100) none 40 20).1 / (computeDims (some 100) none 40 20).2 =
      (40 : ℚ) / 20 ∧
    computeDims none none 40 20 = ((40 : ℚ), (20 : ℚ)) :=
  computeDims_scale 100 40 20 none (by norm_num) (by norm_num) (by norm_num)

/-! ### Determinism: claim C5 -/

/-- C5: the palette builder and the ditherer are pure functions of their
inputs; two invocations on identical inputs (image, palette or target
count, serpentine flag) return identical results. -/
theorem pipeline_deterministic (img img2 : ImageBuffer) (pal pal2 : List Pixel)
    (serp serp2 : Bool) (n n2 : Nat) (ex ex2 : Option (List Pixel))
    (h1 : img = img2) (h2 : pal = pal2) (h3 : serp = serp2) (h4 : n = n2)
    (h5 : ex = ex2) :
    dither img pal floydSteinberg serp = dither img2 pal2 floydSteinberg serp2 ∧
    buildPalette img n ex = buildPalette img2 n2 ex2 := by
  subst h1
  subst h2
  subst h3
  subst h4
  subst h5
  exact ⟨rfl, rfl⟩

/-- C5 witness: two identical concrete invocations. -/
theorem pipeline_deterministic_check :
    dither ⟨1, 1, [⟨10, 20, 30, 255⟩]⟩ [⟨0, 0, 0, 255⟩] floydSteinberg false =
      dither ⟨1, 1, [⟨10, 20, 30, 255⟩]⟩ [⟨0, 0, 0, 255⟩] floydSteinberg false ∧
    buildPalette ⟨1, 1, [⟨10, 20, 30, 255⟩]⟩ 8 none =
      buildPalette ⟨1, 1, [⟨10, 20, 30, 255⟩]⟩ 8 none :=
  pipeline_deterministic _ _ _ _ _ _ _ _ _ _ rfl rfl rfl rfl rfl

/-! ### The ditherer always answers from the palette: claim C1 -/

theorem nearestAux_mem (w : ErrTriple) (l : List Pixel) :
    ∀ (best : Pixel) (d : ℚ), nearestAux w l best d = best ∨ nearestAux w l best d ∈ l := by
  induction l with
  | nil => intro best d; left; rfl
  | cons p rest ih =>
    intro best d
    simp only [nearestAux]
    split
    · rcases ih p (distSq w p) with h | h
      · right
        rw [h]
        exact List.mem_cons_self p rest
      · right
        exact List.mem_cons_of_mem p h
    · rcases ih best d with h | h
      · left
        exact h
      · right
        exact List.mem_cons_of_mem p h

theorem nearestAux_mem_cons (w : ErrTriple) (l : List Pixel) (best : Pixel) (d : ℚ) :
    nearestAux w l best d ∈ best :: l := by
  rcases nearestAux_mem w l best d with h | h
  · rw [h]
    exact List.mem_cons_self best l
  · exact List.mem_cons_of_mem best h

theorem nearestAux_isNearest (w : ErrTriple) (l : List Pixel) :
    ∀ best : Pixel,
      distSq w (nearestAux w l best (distSq w best)) ≤ distSq w best ∧
      ∀ q ∈ l, distSq w (nearestAux w l best (distSq w best)) ≤ distSq w q := by
  induction l with
  | nil =>
    intro best
    exact ⟨le_refl _, by simp⟩
  | cons p rest ih =>
    intro best
    simp only [nearestAux]
    split
    case isTrue h =>
      obtain ⟨h1, h2⟩ := ih p
      refine ⟨le_trans h1 (le_of_lt h), ?_⟩
      intro q hq
      rcases List.mem_cons.mp hq with rfl | hq
      · exact h1
      · exact h2 q hq
    case isFalse h =>
      obtain ⟨h1, h2⟩ := ih best
      refine ⟨h1, ?_⟩
      intro q hq
      rcases List.mem_cons.mp hq with rfl | hq
      · exact le_trans h1 (le_of_not_lt h)
      · exact h2 q hq

theorem rgbOf_reassemble (c : Pixel) (al : Nat) :
    rgbOf ⟨c.r, c.g, c.b, al⟩ = rgbOf c := rfl

theorem clampQ_coe (n : Nat) (h : n ≤ 255) : clampQ (n : ℚ) = (n : ℚ) := by
  unfold clampQ
  have h1 : (n : ℚ) ≤ 255 := by exact_mod_cast h
  have h2 : (0 : ℚ) ≤ (n : ℚ) := Nat.cast_nonneg n
  rw [min_eq_right h1, max_eq_right h2]

theorem index_lt (x y w h : Nat) (hx : x < w) (hy : y < h) :
    y * w + x < w * h := by
  have h1 : y * w + x < (y + 1) * w := by
    rw [Nat.add_one_mul]
    omega
  have h2 : (y + 1) * w ≤ h * w := Nat.mul_le_mul_right w hy
  calc y * w + x < (y + 1) * w := h1
    _ ≤ h * w := h2
    _ = w * h := Nat.mul_comm h w

theorem mem_traversal (w h x y : Nat) (serp : Bool) (hx : x < w) (hy : y < h) :
    (x, y) ∈ traversal w h serp := by
  unfold traversal
  rw [List.mem_flatMap]
  refine ⟨y, List.mem_range.mpr hy, ?_⟩
  simp only [rowPositions]
  rw [List.mem_map]
  refine ⟨x, ?_, rfl⟩
  split
  · rw [List.mem_reverse]
    exact List.mem_range.mpr hx
  · exact List.mem_range.mpr hx

theorem ditherStep_out_length (img : ImageBuffer) (p0 : Pixel) (prest : List Pixel)
    (k : DiffusionKernel) (serp : Bool) (st : DitherState) (pos : Nat × Nat) :
    (ditherStep img p0 prest k serp st pos).out.length = st.out.length := by
  simp [ditherStep]

theorem ditherFold_out_length (img : ImageBuffer) (p0 : Pixel) (prest : List Pixel)
    (k : DiffusionKernel) (serp : Bool) :
    ∀ (l : List (Nat × Nat)) (st : DitherState),
      (l.foldl (ditherStep img p0 prest k serp) st).out.length = st.out.length := by
  intro l
  induction l with
  | nil => intro st; rfl
  | cons pos rest ih =>
    intro st
    rw [List.foldl_cons, ih, ditherStep_out_length]

theorem ditherStep_out_getElem? (img : ImageBuffer) (p0 : Pixel) (prest : List Pixel)
    (k : DiffusionKernel) (serp : Bool) (st : DitherState) (pos : Nat × Nat) (i : Nat) :
    (ditherStep img p0 prest k serp st pos).out[i]? = st.out[i]? ∨
      ∃ px : Pixel, (ditherStep img p0 prest k serp st pos).out[i]? = some px ∧
        rgbOf px ∈ (p0 :: prest).map rgbOf := by
  simp only [ditherStep]
  rw [List.getElem?_set]
  split
  case isTrue heq =>
    split
    case isTrue hlt =>
      right
      refine ⟨_, rfl, ?_⟩
      rw [rgbOf_reassemble]
      exact List.mem_map_of_mem rgbOf (nearestAux_mem_cons _ prest p0 _)
    case isFalse hge =>
      left
      rw [eq_comm, List.getElem?_eq_none]
      omega
  case isFalse hne =>
    left
    rfl

theorem ditherFold_out_getElem? (img : ImageBuffer) (p0 : Pixel) (prest : List Pixel)
    (k : DiffusionKernel) (serp : Bool) :
    ∀ (l : List (Nat × Nat)) (st : DitherState) (i : Nat),
      (l.foldl (ditherStep img p0 prest k serp) st).out[i]? = st.out[i]? ∨
        ∃ px : Pixel,
          (l.foldl (ditherStep img p0 prest k serp) st).out[i]? = some px ∧
          rgbOf px ∈ (p0 :: prest).map rgbOf := by
  intro l
  induction l with
  | nil =>
    intro st i
    left
    rfl
  | cons pos rest ih =>
    intro st i
    rw [List.foldl_cons]
    rcases ih (ditherStep img p0 prest k serp st pos) i with h | h
    · rw [h]
      exact ditherStep_out_getElem? img p0 prest k serp st pos i
    · right
      exact h

theorem ditherStep_writes (img : ImageBuffer) (p0 : Pixel) (prest : List Pixel)
    (k : DiffusionKernel) (serp : Bool) (st : DitherState) (pos : Nat × Nat)
    (hlt : pos.2 * img.width + pos.1 < st.out.length) :
    ∃ px : Pixel,
      (ditherStep img p0 prest k serp st pos).out[pos.2 * img.width + pos.1]? = some px ∧
      rgbOf px ∈ (p0 :: prest).map rgbOf := by
  simp only [ditherStep]
  rw [List.getElem?_set_self hlt]
  refine ⟨_, rfl, ?_⟩
  rw [rgbOf_reassemble]
  exact List.mem_map_of_mem rgbOf (nearestAux_mem_cons _ prest p0 _)

theorem ditherFold_covers (img : ImageBuffer) (p0 : Pixel) (prest : List Pixel)
    (k : DiffusionKernel) (serp : Bool) :
    ∀ (l : List (Nat × Nat)) (st : DitherState) (x y : Nat),
      (x, y) ∈ l → x < img.width → y < img.height →
      img.width * img.height ≤ st.out.length →
      ∃ px : Pixel,
        (l.foldl (ditherStep img p0 prest k serp) st).out[y * img.width + x]? = some px ∧
        rgbOf px ∈ (p0 :: prest).map rgbOf := by
  intro l
  induction l with
  | nil =>
    intro st x y hmem
    simp at hmem
  | cons pos rest ih =>
    intro st x y hmem hx hy hlen
    rw [List.foldl_cons]
    rcases List.mem_cons.mp hmem with heq | hmem2
    · subst heq
      have hlt : (x, y).2 * img.width + (x, y).1 < st.out.length :=
        lt_of_lt_of_le (index_lt x y img.width img.height hx hy) hlen
      obtain ⟨px, hpx, hpxmem⟩ :=
        ditherStep_writes img p0 prest k serp st (x, y) hlt
      rcases ditherFold_out_getElem? img p0 prest k serp rest
          (ditherStep img p0 prest k serp st (x, y)) ((x, y).2 * img.width + (x, y).1) with h | h
      · exact ⟨px, h.trans hpx, hpxmem⟩
      · exact h
    · exact ih (ditherStep img p0 prest k serp st pos) x y hmem2 hx hy
        (by rw [ditherStep_out_length]; exact hlen)

/-- C1: every pixel of a successful `dither` output has RGB channels
exactly equal to some entry of the supplied palette. -/
theorem dither_palette_membership (img : ImageBuffer) (pal : List Pixel)
    (serp : Bool) (out : ImageBuffer)
    (hwf : img.pixels.length = img.width * img.height)
    (hok : dither img pal floydSteinberg serp = .ok out) :
    ∀ px ∈ out.pixels, rgbOf px ∈ pal.map rgbOf := by
  match pal with
  | [] => simp [dither] at hok
  | p0 :: prest =>
    simp only [dither] at hok
    split at hok
    case isTrue => simp at hok
    case isFalse hdim =>
      push_neg at hdim
      obtain ⟨hw0, hh0⟩ := hdim
      have hwpos : 0 < img.width := Nat.pos_of_ne_zero hw0
      have hhpos : 0 < img.height := Nat.pos_of_ne_zero hh0
      rw [Except.ok.injEq] at hok
      intro px hpx
      rw [← hok] at hpx
      simp only at hpx
      obtain ⟨i, hi, hpxi⟩ := List.mem_iff_getElem.mp hpx
      have hi2 : i < img.width * img.height := by
        rw [ditherFold_out_length] at hi
        rw [← hwf]
        exact hi
      have hx : i % img.width < img.width := Nat.mod_lt _ hwpos
      have hy : i / img.width < img.height := by
        rw [Nat.div_lt_iff_lt_mul hwpos]
        rw [Nat.mul_comm img.width img.height] at hi2
        exact hi2
      have hidx : i / img.width * img.width + i % img.width = i := by
        rw [Nat.mul_comm]
        exact Nat.div_add_mod i img.width
      obtain ⟨px2, hpx2, hpx2mem⟩ := ditherFold_covers img p0 prest floydSteinberg serp
        (traversal img.width img.height serp)
        ⟨List.replicate (img.width * img.height) ((0 : ℚ), (0 : ℚ), (0 : ℚ)), img.pixels⟩
        (i % img.width) (i / img.width)
        (mem_traversal _ _ _ _ serp hx hy) hx hy (le_of_eq hwf.symm)
      rw [hidx] at hpx2
      rw [List.getElem?_eq_getElem hi] at hpx2
      rw [Option.some.injEq] at hpx2
      have hpxeq : px2 = px := hpx2.symm.trans hpxi
      rw [← hpxeq]
      exact hpx2mem

/-- C1 witness: a concrete run against the one-entry palette containing
black, whose output pixel is black. -/
theorem dither_palette_membership_check :
    rgbOf ⟨0, 0, 0, 255⟩ ∈ ([⟨0, 0, 0, 255⟩] : List Pixel).map rgbOf :=
  dither_palette_membership ⟨1, 1, [⟨10, 20, 30, 255⟩]⟩ [⟨0, 0, 0, 255⟩] false
    ⟨1, 1, [⟨0, 0, 0, 255⟩]⟩ (by decide) (by decide) ⟨0, 0, 0, 255⟩ (by decide)

/-! ### Boundary safety on a 1 × 1 image: claim C7 -/

theorem traversal_one (serp : Bool) : traversal 1 1 serp = [(0, 0)] := rfl

theorem scanDir_zero (serp : Bool) : scanDir serp 0 = 1 := rfl

theorem distributeError_one (err : ErrTriple) (serp : Bool) :
    distributeError floydSteinberg 1 1 0 0 (scanDir serp 0) err
      [((0 : ℚ), (0 : ℚ), (0 : ℚ))] = [((0 : ℚ), (0 : ℚ), (0 : ℚ))] := by
  rw [scanDir_zero]
  norm_num [distributeError, floydSteinberg, diffuseOne]

theorem dither_single (p q : Pixel) (rest : List Pixel) (serp : Bool)
    (hr : p.r ≤ 255) (hg : p.g ≤ 255) (hb : p.b ≤ 255) :
    dither ⟨1, 1, [p]⟩ (q :: rest) floydSteinberg serp =
      .ok ⟨1, 1,
        [⟨(nearestAux (pixelTriple p) rest q (distSq (pixelTriple p) q)).r,
          (nearestAux (pixelTriple p) rest q (distSq (pixelTriple p) q)).g,
          (nearestAux (pixelTriple p) rest q (distSq (pixelTriple p) q)).b,
          p.a⟩]⟩ := by
  simp only [dither, traversal_one, List.foldl_cons, List.foldl_nil]
  norm_num [ditherStep, List.getD, clampQ_coe p.r hr, clampQ_coe p.g hg,
    clampQ_coe p.b hb, pixelTriple]

/-- C7: dithering a 1 × 1 image against a non-empty palette raises no
error; the single output pixel carries the RGB of the palette entry
nearest to the source pixel in (squared Euclidean) RGB distance and the
source's alpha; and no error is diffused — every Floyd-Steinberg
contribution of the sole pixel aims outside the image, leaving the
accumulator untouched. -/
theorem dither_single_pixel (p q : Pixel) (rest : List Pixel) (serp : Bool)
    (err : ErrTriple) (hr : p.r ≤ 255) (hg : p.g ≤ 255) (hb : p.b ≤ 255) :
    dither ⟨1, 1, [p]⟩ (q :: rest) floydSteinberg serp =
      .ok ⟨1, 1,
        [⟨(nearestAux (pixelTriple p) rest q (distSq (pixelTriple p) q)).r,
          (nearestAux (pixelTriple p) rest q (distSq (pixelTriple p) q)).g,
          (nearestAux (pixelTriple p) rest q (distSq (pixelTriple p) q)).b,
          p.a⟩]⟩ ∧
    nearestAux (pixelTriple p) rest q (distSq (pixelTriple p) q) ∈ q :: rest ∧
    (∀ t ∈ q :: rest,
      distSq (pixelTriple p)
          (nearestAux (pixelTriple p) rest q (distSq (pixelTriple p) q)) ≤
        distSq (pixelTriple p) t) ∧
    distributeError floydSteinberg 1 1 0 0 (scanDir serp 0) err
      [((0 : ℚ), (0 : ℚ), (0 : ℚ))] = [((0 : ℚ), (0 : ℚ), (0 : ℚ))] := by
  refine ⟨dither_single p q rest serp hr hg hb,
    nearestAux_mem_cons (pixelTriple p) rest q (distSq (pixelTriple p) q), ?_,
    distributeError_one err serp⟩
  obtain ⟨h1, h2⟩ := nearestAux_isNearest (pixelTriple p) rest q
  intro t ht
  rcases List.mem_cons.mp ht with rfl | ht2
  · exact h1
  · exact h2 t ht2

/-- C7 witness: a concrete 1 × 1 image dithered against a two-entry
palette, with the distance bound instantiated at the first entry. -/
theorem dither_single_pixel_check :
    dither ⟨1, 1, [⟨10, 20, 30, 255⟩]⟩ (⟨0, 0, 0, 255⟩ :: [⟨255, 255, 255, 255⟩])
        floydSteinberg true =
      .ok ⟨1, 1,
        [⟨(nearestAux (pixelTriple ⟨10, 20, 30, 255⟩) [⟨255, 255, 255, 255⟩] ⟨0, 0, 0, 255⟩
              (distSq (pixelTriple ⟨10, 20, 30, 255⟩) ⟨0, 0, 0, 255⟩)).r,
          (nearestAux (pixelTriple ⟨10, 20, 30, 255⟩) [⟨255, 255, 255, 255⟩] ⟨0, 0, 0, 255⟩
              (distSq (pixelTriple ⟨10, 20, 30, 255⟩) ⟨0, 0, 0, 255⟩)).g,
          (nearestAux (pixelTriple ⟨10, 20, 30, 255⟩) [⟨255, 255, 255, 255⟩] ⟨0, 0, 0, 255⟩
              (distSq (pixelTriple ⟨10, 20, 30, 255⟩) ⟨0, 0, 0, 255⟩)).b,
          255⟩]⟩ ∧
    distSq (pixelTriple ⟨10, 20, 30, 255⟩)
        (nearestAux (pixelTriple ⟨10, 20, 30, 255⟩) [⟨255, 255, 255, 255⟩] ⟨0, 0, 0, 255⟩
          (distSq (pixelTriple ⟨10, 20, 30, 255⟩) ⟨0, 0, 0, 255⟩)) ≤
      distSq (pixelTriple ⟨10, 20, 30, 255⟩) ⟨0, 0, 0, 255⟩ ∧
    distributeError floydSteinberg 1 1 0 0 (scanDir true 0) ((1 : ℚ), (2 : ℚ), (3 : ℚ))
      [((0 : ℚ), (0 : ℚ), (0 : ℚ))] = [((0 : ℚ), (0 : ℚ), (0 : ℚ))] := by
  obtain ⟨ha, hmem, hnear, hdist⟩ :=
    dither_single_pixel ⟨10, 20, 30, 255⟩ ⟨0, 0, 0, 255⟩ [⟨255, 255, 255, 255⟩] true
      ((1 : ℚ), (2 : ℚ), (3 : ℚ)) (by decide) (by decide) (by decide)
  exact ⟨ha, hnear ⟨0, 0, 0, 255⟩ (List.mem_cons_self _ _), hdist⟩

/-! ### Failure conditions and the empty-selection pipeline: claim C2 -/

theorem derivePalette_ne_nil (img : ImageBuffer) (n : Nat) (hn : 0 < n)
    (hpx : img.pixels ≠ []) : derivePalette img n ≠ [] := by
  unfold derivePalette
  intro hcontra
  have hlen := congrArg List.length hcontra
  rw [List.length_take, List.length_insertionSort, List.length_nil] at hlen
  have hd : (firstOccAux img.pixels.length img.pixels).length = 0 := by omega
  cases hpxs : img.pixels with
  | nil => exact hpx hpxs
  | cons a l =>
    rw [hpxs] at hd
    simp [firstOccAux] at hd

theorem dither_ok_of_pos (img : ImageBuffer) (p0 : Pixel) (prest : List Pixel)
    (k : DiffusionKernel) (serp : Bool) (hw : 0 < img.width) (hh : 0 < img.height) :
    pipelineProceeds (.ok (dither img (p0 :: prest) k serp)) = true := by
  simp only [dither]
  rw [if_neg (by omega)]
  rfl

/-- C2 (amended): `dither` fails as `EmptyPalette` whenever its palette has
zero entries, and as `DimensionMismatch` whenever its palette is non-empty
and the image width or height is zero; but when the user supplies neither
an explicit palette nor a preset, the empty selected color list does not
reach `dither` — the pipeline derives a palette from the image (the
source's `colors: 8` target) and dithering proceeds. -/
theorem dither_failure_conditions (img : ImageBuffer) (pal : List Pixel)
    (k : DiffusionKernel) (serp : Bool)
    (hpal : pal ≠ []) (hdim : img.width = 0 ∨ img.height = 0) :
    (∀ (img2 : ImageBuffer) (k2 : DiffusionKernel) (s2 : Bool),
      dither img2 [] k2 s2 = .error .emptyPalette) ∧
    dither img pal k serp = .error .dimensionMismatch ∧
    (∀ img3 : ImageBuffer, img3.pixels ≠ [] → 0 < img3.width → 0 < img3.height →
      pipelineProceeds (cliPipeline [] serp img3) = true) := by
  refine ⟨fun img2 k2 s2 => rfl, ?_, ?_⟩
  · match pal with
    | p0 :: prest =>
      simp only [dither]
      rw [if_pos hdim]
  · intro img3 hpx hw hh
    have hpal3 : buildPaletteFromHex img3 8 [] = .ok (derivePalette img3 8) := rfl
    have hne := derivePalette_ne_nil img3 8 (by norm_num) hpx
    unfold cliPipeline
    rw [hpal3]
    match hder : derivePalette img3 8 with
    | [] => exact absurd hder hne
    | p0 :: prest =>
      exact dither_ok_of_pos img3 p0 prest floydSteinberg serp hw hh

/-- C2 counterexample: with neither `--palette` nor `--preset` supplied the
selected palette is the empty list, yet dithering proceeds — the pipeline
derives a one-color palette from this 1 × 1 image and produces an output
buffer instead of failing. -/
theorem pipeline_empty_selection_proceeds_cex :
    selectIndex none none [] = .palette [] ∧
    cliPipeline [] false ⟨1, 1, [⟨10, 20, 30, 255⟩]⟩ =
      .ok (.ok ⟨1, 1, [⟨10, 20, 30, 255⟩]⟩) ∧
    pipelineProceeds (cliPipeline [] false ⟨1, 1, [⟨10, 20, 30, 255⟩]⟩) = true := by
  decide

/-- C2 witness. -/
theorem dither_failure_conditions_check :
    dither ⟨2, 3, []⟩ [] floydSteinberg false = .error .emptyPalette ∧
    dither ⟨0, 3, []⟩ [⟨0, 0, 0, 255⟩] floydSteinberg false = .error .dimensionMismatch ∧
    pipelineProceeds (cliPipeline [] false ⟨1, 1, [⟨7, 8, 9, 255⟩]⟩) = true := by
  obtain ⟨h1, h2, h3⟩ :=
    dither_failure_conditions ⟨0, 3, []⟩ [⟨0, 0, 0, 255⟩] floydSteinberg false
      (by decide) (Or.inl rfl)
  exact ⟨h1 ⟨2, 3, []⟩ floydSteinberg false, h2,
    h3 ⟨1, 1, [⟨7, 8, 9, 255⟩]⟩ (by decide) (by decide) (by decide)⟩

/-! ### Validation of explicit palette entries: claim C3 -/

theorem parseHexList_eq_none (strs : List Str) (s : Str) (hmem : s ∈ strs)
    (hs : hexToRgb s = none) : parseHexList strs = none := by
  induction strs with
  | nil => simp at hmem
  | cons a l ih =>
    rcases List.mem_cons.mp hmem with rfl | h
    · simp [parseHexList, hs]
    · rw [parseHexList, ih h]
      cases hexToRgb a <;> rfl

/-- C3: a malformed entry of an explicitly supplied color sequence — a
string the hex regex rejects, or a pixel with a channel above 255 — makes
palette building fail as `InvalidPaletteEntry` instead of being silently
passed through; and a successful build from a non-empty explicit sequence
returns exactly that sequence with every entry well-formed (channels
0–255). -/
theorem explicit_palette_validation (img : ImageBuffer) (n : Nat) :
    (∀ (strs : List Str) (s : Str), s ∈ strs → hexMatch s = false →
      buildPaletteFromHex img n strs = .error .invalidPaletteEntry) ∧
    (∀ (cs : List Pixel) (p : Pixel), p ∈ cs → p.wfb = false →
      buildPalette img n (some cs) = .error .invalidPaletteEntry) ∧
    (∀ cs pal : List Pixel, cs ≠ [] → buildPalette img n (some cs) = .ok pal →
      pal = cs ∧ ∀ p ∈ pal, p.wfb = true) := by
  refine ⟨?_, ?_, ?_⟩
  · intro strs s hmem hs
    match strs with
    | [] => simp at hmem
    | a :: l =>
      have hnone : parseHexList (a :: l) = none :=
        parseHexList_eq_none (a :: l) s hmem (hexToRgb_eq_none_of_not_match s hs)
      simp [buildPaletteFromHex, hnone]
  · intro cs p hmem hp
    have hcs : cs.isEmpty = false := by
      cases cs with
      | nil => simp at hmem
      | cons a l => rfl
    have hall : cs.all Pixel.wfb = false := by
      cases hallc : cs.all Pixel.wfb with
      | false => rfl
      | true =>
        have htr := List.all_eq_true.mp hallc p hmem
        rw [htr] at hp
        simp at hp
    simp [buildPalette, hcs, hall]
  · intro cs pal hne hok
    have hcs : cs.isEmpty = false := by
      cases cs with
      | nil => exact absurd rfl hne
      | cons a l => rfl
    simp only [buildPalette, hcs, Bool.false_eq_true, if_false] at hok
    split at hok
    case isTrue hall =>
      rw [Except.ok.injEq] at hok
      subst hok
      refine ⟨rfl, ?_⟩
      intro p hp
      exact List.all_eq_true.mp hall p hp
    case isFalse => simp at hok

/-- C3 witness: the malformed string `zz` fails, an out-of-range explicit
pixel fails, and a well-formed singleton palette passes through validated. -/
theorem explicit_palette_validation_check :
    buildPaletteFromHex ⟨1, 1, [⟨1, 2, 3, 255⟩]⟩ 8 [['z', 'z']] =
      .error .invalidPaletteEntry ∧
    buildPalette ⟨1, 1, [⟨1, 2, 3, 255⟩]⟩ 8 (some [⟨999, 0, 0, 255⟩]) =
      .error .invalidPaletteEntry ∧
    ([⟨0, 0, 0, 255⟩] : List Pixel) = [⟨0, 0, 0, 255⟩] ∧
    Pixel.wfb ⟨0, 0, 0, 255⟩ = true := by
  obtain ⟨h1, h2, h3⟩ := explicit_palette_validation ⟨1, 1, [⟨1, 2, 3, 255⟩]⟩ 8
  obtain ⟨h4, h5⟩ := h3 [⟨0, 0, 0, 255⟩] [⟨0, 0, 0, 255⟩] (by decide) (by decide)
  exact ⟨h1 [['z', 'z']] ['z', 'z'] (List.mem_cons_self _ _) (by decide),
    h2 [⟨999, 0, 0, 255⟩] ⟨999, 0, 0, 255⟩ (List.mem_cons_self _ _) (by decide),
    h4, h5 ⟨0, 0, 0, 255⟩ (List.mem_cons_self _ _)⟩

end DitherSpec
